import Mathlib

/-!
Verification development for the battery-cell monitoring dashboard
(`battery_dashboard_ai.py`).  The core state model, simulation handlers and
the status/scoring/alerting functions are shallowly embedded over `Rat`
(floats become exact rationals; Python `round(x, 2)` becomes round-half-even
to two decimal places on rationals).  Stores are association lists in
insertion order, matching Python dict iteration order; the injected
randomness of `initialize` and `tick` becomes explicit parameters.
-/

namespace BatteryDashboard

/-- Chemistry tags registered in `CELL_CONFIGS` (lines 76-89). -/
inductive Chemistry where
  | lfp
  | nmc
deriving DecidableEq, Repr

/-- Per-chemistry electrical bounds (the `CELL_CONFIGS` record fields,
lines 76-89; the `color` field is presentation only and omitted). -/
structure CellConfig where
  nominal_voltage : Rat
  min_voltage : Rat
  max_voltage : Rat
deriving DecidableEq, Repr

/-- The `CELL_CONFIGS` registry (lines 76-89). -/
def CELL_CONFIGS : Chemistry → CellConfig
  | .lfp => { nominal_voltage := 3.2, min_voltage := 2.8, max_voltage := 3.6 }
  | .nmc => { nominal_voltage := 3.6, min_voltage := 3.2, max_voltage := 4.0 }

/-- One cell's record in `st.session_state.cells_data` (lines 149-159). -/
structure CellState where
  type : Chemistry
  voltage : Rat
  current : Rat
  temp : Rat
  min_voltage : Rat
  max_voltage : Rat
  capacity : Rat
  cycle_count : Nat
  health : Rat
deriving DecidableEq, Repr

/-- One entry of `st.session_state.historical_data` (lines 187-191): a
timestamp, the cell id, and a full snapshot of the cell's fields. -/
structure HistoryRecord where
  timestamp : Nat
  cell_id : String
  state : CellState
deriving DecidableEq, Repr

/-- The mutable session state of the dashboard: `cells_data` as an ordered
association list (Python dicts iterate in insertion order) and the
append-only `historical_data` log (lines 66-69). -/
structure DashState where
  cells_data : List (String × CellState)
  historical_data : List HistoryRecord
deriving DecidableEq, Repr

/-- Error kinds of the spec's error-handling design; in the source these
surface as the `st.stop()` empty-store guard and the widget input bound. -/
inductive Err where
  | UnknownChemistry
  | CellNotFound
  | InvalidValue
  | EmptyStore
  | InsufficientData
deriving DecidableEq, Repr

/-- Round a rational to the nearest integer, ties to even — the semantics of
Python's `round` on exact values. -/
def roundHalfEven (x : Rat) : Int :=
  if x - ⌊x⌋ < 1/2 then ⌊x⌋
  else if 1/2 < x - ⌊x⌋ then ⌊x⌋ + 1
  else if ⌊x⌋ % 2 = 0 then ⌊x⌋ else ⌊x⌋ + 1

/-- Python `round(x, 2)` on exact rationals. -/
def round2 (x : Rat) : Rat := (roundHalfEven (x * 100) : Rat) / 100

/-- Python `round(x, 1)` on exact rationals. -/
def round1 (x : Rat) : Rat := (roundHalfEven (x * 10) : Rat) / 10

/-- Status classes returned by `get_cell_status`. -/
inductive Status where
  | Good
  | Warning
  | Critical
deriving DecidableEq, Repr

/-- The `get_cell_status` function (lines 91-103). -/
def get_cell_status (cell_data : CellState) : Status :=
  if 45 < cell_data.temp ∨ cell_data.voltage < cell_data.min_voltage * 0.9 ∨
      cell_data.max_voltage * 1.05 < cell_data.voltage then
    .Critical
  else if 40 < cell_data.temp ∨ cell_data.voltage < cell_data.min_voltage ∨
      cell_data.max_voltage < cell_data.voltage then
    .Warning
  else
    .Good

/-- The `performance_score` column of the ranking table (lines 445-449):
`health*0.4 + (voltage/max_voltage)*30 + (100-(temp-25)*2).clip(0,30)*0.3`,
where pandas `clip(0, 30)` is `min 30 (max 0 ·)`. -/
def performance_score (cell : CellState) : Rat :=
  cell.health * 0.4 + (cell.voltage / cell.max_voltage) * 30 +
    (min 30 (max 0 (100 - (cell.temp - 25) * 2))) * 0.3

/-- The average-health aggregate: the source guards the whole dashboard body
with `st.stop()` when the store is empty (lines 237-239), so `avg_health`
(line 318) is only ever computed on a non-empty store; the guard is the
`EmptyStore` failure of the spec. -/
def avg_health (s : DashState) : Except Err Rat :=
  if s.cells_data.isEmpty then .error .EmptyStore
  else .ok ((s.cells_data.map (fun p => p.2.health)).sum / s.cells_data.length)

/-- Alert categories of the alerts loop (lines 460-471); each alert carries
the id of the cell it mentions. -/
inductive Alert where
  | criticalTemp (cell_id : String)
  | highTemp (cell_id : String)
  | lowHealth (cell_id : String)
  | lowVoltage (cell_id : String)
deriving DecidableEq, Repr

/-- The body of the alerts loop (lines 462-471) for one cell: append a
critical-temperature alert if `temp > 45`, else a high-temperature alert if
`temp > 40`; then a low-health alert if `health < 70`; then a low-voltage
alert if `voltage < min_voltage`. -/
def alertStep (acc : List Alert) (p : String × CellState) : List Alert :=
  let acc1 :=
    if 45 < p.2.temp then acc ++ [Alert.criticalTemp p.1]
    else if 40 < p.2.temp then acc ++ [Alert.highTemp p.1]
    else acc
  let acc2 := if p.2.health < 70 then acc1 ++ [Alert.lowHealth p.1] else acc1
  if p.2.voltage < p.2.min_voltage then acc2 ++ [Alert.lowVoltage p.1] else acc2

/-- The alerts loop (lines 460-471), kept in the source's shape: one
accumulator list, extended by `alertStep` for each cell in store order. -/
def alerts (s : DashState) : List Alert :=
  s.cells_data.foldl alertStep []

/-- The alerts one cell contributes, as a self-contained list (used to state
claims about `alerts`; proved equal to the loop's contribution). -/
def cellAlerts (cid : String) (c : CellState) : List Alert :=
  (if 45 < c.temp then [Alert.criticalTemp cid]
   else if 40 < c.temp then [Alert.highTemp cid]
   else [])
  ++ (if c.health < 70 then [Alert.lowHealth cid] else [])
  ++ (if c.voltage < c.min_voltage then [Alert.lowVoltage cid] else [])

/-- The three random perturbations one tick draws for one cell
(lines 174-176): `uniform(-0.05, 0.05)`, `uniform(-0.2, 0.2)`,
`uniform(-1, 1)`. -/
structure TickDelta where
  dv : Rat
  dc : Rat
  dt : Rat
deriving DecidableEq, Repr

/-- One cell's update inside the Simulate Real-time Update handler
(lines 171-182), in the source's order: add the three deltas, recompute
`capacity = round(voltage * current, 2)` from the post-delta values, then
clamp voltage into `[min_voltage, max_voltage]`, current into `[0, ∞)` and
temp into `[20, 50]`. -/
def tickCell (d : TickDelta) (cell : CellState) : CellState :=
  let v := cell.voltage + d.dv
  let cur := cell.current + d.dc
  let t := cell.temp + d.dt
  { cell with
    capacity := round2 (v * cur)
    voltage := max cell.min_voltage (min cell.max_voltage v)
    current := max 0 cur
    temp := max 20 (min 50 t) }

/-- Turn a cell's post-update state into its history entry
(lines 187-191): the shared tick timestamp, the cell id, and the spread
`**cell_data` snapshot. -/
def mkRecord (ts : Nat) (cid : String) (cell : CellState) : HistoryRecord :=
  { timestamp := ts, cell_id := cid, state := cell }

/-- The Simulate Real-time Update handler (lines 170-191): update every cell
in store order, then take `timestamp = datetime.datetime.now()` once and
append one record per cell to `historical_data`.  The injected randomness is
the per-cell delta map `d`; the injected clock read is `ts`. -/
def tick (d : String → TickDelta) (ts : Nat) (s : DashState) : DashState :=
  let newCells := s.cells_data.map (fun p => (p.1, tickCell (d p.1) p.2))
  { cells_data := newCells
    historical_data :=
      s.historical_data ++ newCells.map (fun p => mkRecord ts p.1 p.2) }

/-- The Emergency Stop handler (lines 195-198): set every cell's `current`
to 0.  No other field is written — in particular `capacity` is left at its
previous value — and nothing is appended to `historical_data`. -/
def emergency_stop (s : DashState) : DashState :=
  { s with
    cells_data := s.cells_data.map (fun p => (p.1, { p.2 with current := 0 })) }

/-- The Update Current handler (lines 402-417).  The `st.number_input`
widget carries `min_value=0.0`, so a negative value never reaches the
handler; that input bound is the spec's `InvalidValue` rejection, modelled
as the error branch.  On a valid value the handler writes `current` and
`capacity = round(voltage * new_current, 2)` for the selected cell only. -/
def set_current (cid : String) (new_current : Rat) (s : DashState) :
    Except Err DashState :=
  if new_current < 0 then .error .InvalidValue
  else
    .ok { s with
      cells_data := s.cells_data.map (fun p =>
        if p.1 = cid then
          (p.1, { p.2 with
            current := new_current
            capacity := round2 (p.2.voltage * new_current) })
        else p) }

/-- The Reset All Data handler (lines 200-203): clears both the store and
the history log. -/
def reset (_s : DashState) : DashState :=
  { cells_data := [], historical_data := [] }

/-- Cell identifiers `cell_1`, `cell_2`, ... used by the Initialize Cells
handler (line 149). -/
def cellId (i : Nat) : String := "cell_" ++ toString i

/-- The random draws the Initialize Cells handler makes for cell number `i`
(lines 146-158): `random.choice(["lfp", "nmc"])`, `uniform(-0.1, 0.1)`,
`uniform(0, 5)`, `uniform(25, 40)`, `randint(0, 1000)`, `uniform(80, 100)`. -/
structure InitRand where
  chem : Nat → Chemistry
  voff : Nat → Rat
  cur : Nat → Rat
  tmp : Nat → Rat
  cyc : Nat → Nat
  hlth : Nat → Rat

/-- The cell the Initialize Cells handler builds for index `i`
(lines 146-164): the first loop fills the fields with `capacity = 0`, the
second loop overwrites `capacity = round(voltage * current, 2)`; the two
loops compose to this single record. -/
def initCell (r : InitRand) (i : Nat) : CellState :=
  let config := CELL_CONFIGS (r.chem i)
  let v := config.nominal_voltage + r.voff i
  let cur := r.cur i
  { type := r.chem i
    voltage := v
    current := cur
    temp := round1 (r.tmp i)
    min_voltage := config.min_voltage
    max_voltage := config.max_voltage
    capacity := round2 (v * cur)
    cycle_count := r.cyc i
    health := r.hlth i }

/-- The Initialize Cells handler (lines 143-166): replaces `cells_data`
with fresh cells `cell_1 .. cell_n`; `historical_data` is not touched. -/
def init_cells (n : Nat) (r : InitRand) (s : DashState) : DashState :=
  { s with
    cells_data := (List.range n).map (fun k => (cellId (k + 1), initCell r (k + 1))) }

/-! Helper lemmas about the rounding primitives and the alerts fold. -/

lemma floor_le_roundHalfEven (y : Rat) : ⌊y⌋ ≤ roundHalfEven y := by
  unfold roundHalfEven
  split_ifs <;> omega

lemma roundHalfEven_le_ceil (y : Rat) : roundHalfEven y ≤ ⌈y⌉ := by
  have hfc : ⌊y⌋ ≤ ⌈y⌉ := Int.floor_le_ceil y
  have hceil := Int.le_ceil y
  have hfl := Int.floor_le y
  unfold roundHalfEven
  split_ifs with h1 h2 h3
  · exact hfc
  · have hy : (⌊y⌋ : Rat) < y := by linarith
    have h4 : ⌊y⌋ < ⌈y⌉ := by
      by_contra hc
      push_neg at hc
      have hcc : (⌈y⌉ : Rat) ≤ (⌊y⌋ : Rat) := by exact_mod_cast hc
      linarith
    omega
  · exact hfc
  · have hy : (⌊y⌋ : Rat) < y := by linarith
    have h4 : ⌊y⌋ < ⌈y⌉ := by
      by_contra hc
      push_neg at hc
      have hcc : (⌈y⌉ : Rat) ≤ (⌊y⌋ : Rat) := by exact_mod_cast hc
      linarith
    omega

lemma abs_roundHalfEven_sub (y : Rat) : |(roundHalfEven y : Rat) - y| ≤ 1/2 := by
  have hfl := Int.floor_le y
  have hfu := Int.lt_floor_add_one y
  unfold roundHalfEven
  split_ifs with h1 h2 h3 <;>
  · rw [abs_le]
    push_cast
    constructor <;> linarith

lemma roundHalfEven_ge {y : Rat} {m : Int} (h : (m : Rat) ≤ y) :
    m ≤ roundHalfEven y :=
  le_trans (Int.le_floor.mpr h) (floor_le_roundHalfEven y)

lemma roundHalfEven_le {y : Rat} {m : Int} (h : y ≤ (m : Rat)) :
    roundHalfEven y ≤ m :=
  le_trans (roundHalfEven_le_ceil y) (Int.ceil_le.mpr h)

lemma abs_round2_sub (x : Rat) : |round2 x - x| ≤ 1/200 := by
  have h := abs_roundHalfEven_sub (x * 100)
  unfold round2
  rw [show (roundHalfEven (x * 100) : Rat) / 100 - x
        = ((roundHalfEven (x * 100) : Rat) - x * 100) / 100 by ring,
    abs_div]
  rw [abs_of_pos (by norm_num : (0:Rat) < 100)]
  linarith

lemma round1_ge {a : Rat} {m : Int} (h : (m : Rat) ≤ a * 10) :
    (m : Rat) / 10 ≤ round1 a := by
  unfold round1
  have := roundHalfEven_ge h
  have hc : (m : Rat) ≤ (roundHalfEven (a * 10) : Rat) := by exact_mod_cast this
  linarith

lemma round1_le {a : Rat} {m : Int} (h : a * 10 ≤ (m : Rat)) :
    round1 a ≤ (m : Rat) / 10 := by
  unfold round1
  have := roundHalfEven_le h
  have hc : (roundHalfEven (a * 10) : Rat) ≤ (m : Rat) := by exact_mod_cast this
  linarith

lemma alertStep_eq (acc : List Alert) (p : String × CellState) :
    alertStep acc p = acc ++ cellAlerts p.1 p.2 := by
  simp only [alertStep, cellAlerts]
  split_ifs <;> simp

lemma foldl_alertStep (l : List (String × CellState)) (acc : List Alert) :
    l.foldl alertStep acc = acc ++ l.flatMap (fun p => cellAlerts p.1 p.2) := by
  induction l generalizing acc with
  | nil => simp
  | cons x xs ih => simp [List.foldl_cons, alertStep_eq, ih]

/-! Concrete states used by scenario conjuncts, witnesses and
counterexamples. -/

/-- A nominal LFP cell at `temperature = 46` (the status-priority scenario). -/
def nominalLfpCell46 : CellState :=
  { type := .lfp, voltage := 3.2, current := 1, temp := 46, min_voltage := 2.8,
    max_voltage := 3.6, capacity := 3.2, cycle_count := 0, health := 90 }

/-- The alerts-scenario cell: `temp = 46`, `health = 60`, `voltage = 2.5`,
`min_voltage = 2.8`. -/
def alertScenarioCell : CellState :=
  { type := .lfp, voltage := 2.5, current := 1, temp := 46, min_voltage := 2.8,
    max_voltage := 3.6, capacity := 2.5, cycle_count := 10, health := 60 }

/-- A one-cell store holding `alertScenarioCell`. -/
def alertScenarioState : DashState :=
  { cells_data := [("cell_1", alertScenarioCell)], historical_data := [] }

/-- A healthy in-range LFP demo cell (`capacity = 3.2 * 2 = 6.4`). -/
def demoCell : CellState :=
  { type := .lfp, voltage := 3.2, current := 2, temp := 30, min_voltage := 2.8,
    max_voltage := 3.6, capacity := 6.4, cycle_count := 100, health := 95 }

/-- A one-cell store holding `demoCell`. -/
def demoState : DashState :=
  { cells_data := [("cell_1", demoCell)], historical_data := [] }

/-- An LFP cell whose current (`0.1 A`) is small enough that a tick delta of
`-0.2 A` drives it negative before clamping. -/
def lowCurrentCell : CellState :=
  { type := .lfp, voltage := 3.2, current := 0.1, temp := 30, min_voltage := 2.8,
    max_voltage := 3.6, capacity := 0.32, cycle_count := 0, health := 90 }

/-- A one-cell store holding `lowCurrentCell`. -/
def lowCurrentState : DashState :=
  { cells_data := [("cell_1", lowCurrentCell)], historical_data := [] }

/-- A tick delta within the documented bounds (`|dv| ≤ 0.05`, `|dc| ≤ 0.2`,
`|dt| ≤ 1`) whose current component is `-0.2`. -/
def clampDelta : TickDelta := { dv := 0, dc := -0.2, dt := 0 }

/-- An LFP cell whose voltage `3.333` makes `round(voltage * 1, 2)` differ
from the exact product. -/
def oddVoltageCell : CellState :=
  { type := .lfp, voltage := 3.333, current := 1, temp := 30, min_voltage := 2.8,
    max_voltage := 3.6, capacity := 3.33, cycle_count := 0, health := 90 }

/-- A one-cell store holding `oddVoltageCell`. -/
def oddVoltageState : DashState :=
  { cells_data := [("cell_1", oddVoltageCell)], historical_data := [] }

/-- The empty dashboard state. -/
def emptyDash : DashState := { cells_data := [], historical_data := [] }

/-- The fixed chemistry-assignment policy `[lfp, nmc, lfp, nmc]` with all
random offsets fixed to `0` (and in-range constant values for the other
draws), as in the initialize scenario. -/
def fixedRand : InitRand :=
  { chem := fun i => if i % 2 = 1 then .lfp else .nmc
    voff := fun _ => 0
    cur := fun _ => 2
    tmp := fun _ => 30
    cyc := fun _ => 100
    hlth := fun _ => 90 }

/-- A randomness source (all draws within the documented ranges) whose
current draw `1.111 A` makes the rounded capacity differ from the exact
product. -/
def oddRand : InitRand :=
  { chem := fun _ => .lfp
    voff := fun _ => 0
    cur := fun _ => 1.111
    tmp := fun _ => 30
    cyc := fun _ => 0
    hlth := fun _ => 90 }

/-! Claim theorems. -/

/-- C5: for every cell state, `get_cell_status` returns `Critical` iff
`temperature > 45` or `voltage < 0.9 * min_voltage` or
`voltage > 1.05 * max_voltage`; otherwise `Warning` iff `temperature > 40`
or `voltage < min_voltage` or `voltage > max_voltage`; otherwise `Good` —
the Critical conditions are checked before the Warning conditions, so the
nominal-voltage cell at `temperature = 46` reports `Critical`. -/
theorem C5_status_classification (c : CellState) :
    (get_cell_status c = Status.Critical ↔
      (45 < c.temp ∨ c.voltage < 0.9 * c.min_voltage ∨
        1.05 * c.max_voltage < c.voltage)) ∧
    (get_cell_status c = Status.Warning ↔
      (¬(45 < c.temp ∨ c.voltage < 0.9 * c.min_voltage ∨
          1.05 * c.max_voltage < c.voltage) ∧
        (40 < c.temp ∨ c.voltage < c.min_voltage ∨ c.max_voltage < c.voltage))) ∧
    (get_cell_status c = Status.Good ↔
      (¬(45 < c.temp ∨ c.voltage < 0.9 * c.min_voltage ∨
          1.05 * c.max_voltage < c.voltage) ∧
        ¬(40 < c.temp ∨ c.voltage < c.min_voltage ∨ c.max_voltage < c.voltage))) ∧
    get_cell_status nominalLfpCell46 = Status.Critical := by
  have e1 : c.min_voltage * 0.9 = 0.9 * c.min_voltage := mul_comm _ _
  have e2 : c.max_voltage * 1.05 = 1.05 * c.max_voltage := mul_comm _ _
  refine ⟨?_, ?_, ?_, by norm_num [get_cell_status, nominalLfpCell46]⟩ <;>
  · unfold get_cell_status
    simp only [e1, e2]
    split_ifs with h1 h2 <;> simp_all

/-- Witness for C5: the in-range demo cell classifies as `Good`. -/
theorem C5_status_classification_witness :
    get_cell_status demoCell = Status.Good :=
  (C5_status_classification demoCell).2.2.1.mpr
    (by norm_num [demoCell])

/-- C7: for every cell state, `performance_score` equals
`0.4 * health + 30 * (voltage / max_voltage)
 + 0.3 * clip(100 - (temperature - 25) * 2, 0, 30)`. -/
theorem C7_performance_score (c : CellState) :
    performance_score c =
      0.4 * c.health + 30 * (c.voltage / c.max_voltage) +
        0.3 * min 30 (max 0 (100 - (c.temp - 25) * 2)) := by
  unfold performance_score
  ring

/-- C6: `alerts` emits, per cell in store order, the critical-temperature
alert if `temp > 45`, else the high-temperature alert if `temp > 40`;
independently the low-health alert if `health < 70`; independently the
low-voltage alert if `voltage < min_voltage`, in that per-cell order; the
critical- and high-temperature alerts are never both emitted for one cell;
and the scenario cell (`temp = 46`, `health = 60`, `voltage = 2.5`,
`min_voltage = 2.8`) produces exactly the three alerts critical-temperature,
low-health, low-voltage. -/
theorem C6_alerts_order :
    (∀ s : DashState, alerts s = s.cells_data.flatMap (fun p => cellAlerts p.1 p.2)) ∧
    (∀ cid c, cellAlerts cid c =
        (if 45 < c.temp then [Alert.criticalTemp cid]
         else if 40 < c.temp then [Alert.highTemp cid]
         else [])
        ++ (if c.health < 70 then [Alert.lowHealth cid] else [])
        ++ (if c.voltage < c.min_voltage then [Alert.lowVoltage cid] else [])) ∧
    (∀ cid c, ¬(Alert.criticalTemp cid ∈ cellAlerts cid c ∧
        Alert.highTemp cid ∈ cellAlerts cid c)) ∧
    alerts alertScenarioState =
      [Alert.criticalTemp "cell_1", Alert.lowHealth "cell_1",
        Alert.lowVoltage "cell_1"] := by
  refine ⟨fun s => by rw [alerts, foldl_alertStep]; simp, fun cid c => rfl,
    fun cid c => ?_, ?_⟩
  · rintro ⟨hcrit, hhigh⟩
    simp only [cellAlerts] at hcrit hhigh
    split_ifs at hcrit hhigh <;> simp_all
  · norm_num [alerts, alertScenarioState, alertScenarioCell, List.foldl,
      alertStep]

/-- Witness for C6: the temperature-alert exclusivity instantiated at a
concrete cell. -/
theorem C6_alerts_order_witness :
    ¬(Alert.criticalTemp "cell_1" ∈ cellAlerts "cell_1" demoCell ∧
        Alert.highTemp "cell_1" ∈ cellAlerts "cell_1" demoCell) :=
  C6_alerts_order.2.2.1 "cell_1" demoCell

/-- C4: `avg_health` returns the arithmetic mean of `health` over all cells
when the store is non-empty (the mean `m` satisfies
`m * #cells = sum of healths`), and fails with `EmptyStore` when the store
contains zero cells. -/
theorem C4_avg_health (s : DashState) :
    (s.cells_data = [] → avg_health s = Except.error Err.EmptyStore) ∧
    (s.cells_data ≠ [] → ∃ m, avg_health s = Except.ok m ∧
      m * s.cells_data.length = (s.cells_data.map (fun p => p.2.health)).sum) := by
  constructor
  · intro h
    simp [avg_health, h]
  · intro h
    refine ⟨(s.cells_data.map (fun p => p.2.health)).sum / s.cells_data.length,
      by simp [avg_health, h], ?_⟩
    have hlen : (s.cells_data.length : Rat) ≠ 0 := by
      simp [h]
    field_simp

/-- Witness for C4 at an empty and at a one-cell store. -/
theorem C4_avg_health_witness :
    avg_health emptyDash = Except.error Err.EmptyStore ∧
    ∃ m, avg_health demoState = Except.ok m ∧
      m * demoState.cells_data.length =
        (demoState.cells_data.map (fun p => p.2.health)).sum := by
  refine ⟨(C4_avg_health emptyDash).1 rfl, (C4_avg_health demoState).2 ?_⟩
  simp [demoState]

/-- C8: every `tick` appends exactly one record per cell (history grows by
the number of cells), the appended records are snapshots of the post-clamp
cell states in store order, and every appended record carries the single
shared timestamp of the tick. -/
theorem C8_tick_history (d : String → TickDelta) (ts : Nat) (s : DashState) :
    (tick d ts s).historical_data.length
        = s.historical_data.length + s.cells_data.length ∧
    (tick d ts s).historical_data
        = s.historical_data
          ++ (tick d ts s).cells_data.map (fun p => mkRecord ts p.1 p.2) ∧
    ∀ r ∈ (tick d ts s).historical_data.drop s.historical_data.length,
      r.timestamp = ts := by
  refine ⟨by simp [tick], rfl, ?_⟩
  intro r hr
  have hd : (tick d ts s).historical_data.drop s.historical_data.length
      = (tick d ts s).cells_data.map (fun p => mkRecord ts p.1 p.2) := by
    simp [tick, List.drop_left]
  rw [hd] at hr
  obtain ⟨p, hp, rfl⟩ := List.mem_map.mp hr
  rfl

/-- Witness for C8 at a concrete one-cell store and timestamp 5. -/
theorem C8_tick_history_witness :
    (tick (fun _ => clampDelta) 5 demoState).historical_data.length
        = demoState.historical_data.length + demoState.cells_data.length ∧
    (mkRecord 5 "cell_1" (tickCell clampDelta demoCell)).timestamp = 5 := by
  refine ⟨(C8_tick_history (fun _ => clampDelta) 5 demoState).1, ?_⟩
  refine (C8_tick_history (fun _ => clampDelta) 5 demoState).2.2 _ ?_
  simp [tick, demoState, mkRecord]

/-- C2 counterexample: on a store whose single cell has `capacity = 6.4`,
`emergency_stop` zeroes the current but leaves `capacity = 6.4 ≠ 0`,
refuting the claim that every cell has `capacity == 0` afterwards. -/
theorem C2_counterexample :
    (emergency_stop demoState).cells_data.map (fun p => (p.2.current, p.2.capacity))
        = [(0, 6.4)] ∧
    (6.4 : Rat) ≠ 0 := by
  norm_num [emergency_stop, demoState, demoCell]

/-- C2 (amended): after `emergency_stop`, every cell's current is 0, and
every cell's id, voltage, temperature and capacity are unchanged (capacity
is not recomputed, so it keeps its pre-call value rather than becoming 0);
the History Log is unchanged. -/
theorem C2_emergency_stop (s : DashState) :
    (∀ q ∈ (emergency_stop s).cells_data, q.2.current = 0) ∧
    (emergency_stop s).cells_data.map
        (fun p => (p.1, p.2.voltage, p.2.temp, p.2.capacity))
      = s.cells_data.map (fun p => (p.1, p.2.voltage, p.2.temp, p.2.capacity)) ∧
    (emergency_stop s).historical_data = s.historical_data := by
  refine ⟨?_, ?_, rfl⟩
  · intro q hq
    simp only [emergency_stop] at hq
    obtain ⟨p, hp, rfl⟩ := List.mem_map.mp hq
    rfl
  · simp [emergency_stop]

/-- Witness for C2 at a concrete one-cell store. -/
theorem C2_emergency_stop_witness :
    ("cell_1", { demoCell with current := 0 }).2.current = 0 ∧
    (emergency_stop demoState).historical_data = demoState.historical_data := by
  refine ⟨(C2_emergency_stop demoState).1 _ ?_, (C2_emergency_stop demoState).2.2⟩
  simp [emergency_stop, demoState]

/-- C1 counterexample: a tick whose current delta `-0.2` drives a `0.1 A`
cell's current negative computes `capacity = round(3.2 * (-0.1), 2) = -0.32`
from the pre-clamp values; after clamping the cell has `current = 0`, so the
post-clamp product is `0`, yet the stored capacity is `-0.32` — the claimed
invariant `capacity == voltage * current` on post-clamp values fails far
beyond floating tolerance (the stored capacity is even negative). -/
theorem C1_counterexample :
    (tick (fun _ => clampDelta) 0 lowCurrentState).cells_data.map
        (fun p => (p.2.voltage, p.2.current, p.2.capacity))
      = [(3.2, 0, -0.32)] ∧
    ((-0.32 : Rat) ≠ 3.2 * 0) ∧ ((-0.32 : Rat) < 0) := by
  have hmap : (tick (fun _ => clampDelta) 0 lowCurrentState).cells_data
      = [("cell_1", tickCell clampDelta lowCurrentCell)] := rfl
  have hv : (tickCell clampDelta lowCurrentCell).voltage = 3.2 := by
    simp only [tickCell, lowCurrentCell, clampDelta]
    norm_num [max_def, min_def]
  have hc : (tickCell clampDelta lowCurrentCell).current = 0 := by
    simp only [tickCell, lowCurrentCell, clampDelta]
    norm_num [max_def, min_def]
  have hcap : (tickCell clampDelta lowCurrentCell).capacity = -0.32 := by
    simp only [tickCell, lowCurrentCell, clampDelta]
    norm_num [round2, roundHalfEven]
  rw [hmap]
  simp only [List.map_cons, List.map_nil, hv, hc, hcap]
  norm_num

/-- C1 (amended): after every `tick`, each cell satisfies
`min_voltage ≤ voltage ≤ max_voltage` (given `min_voltage ≤ max_voltage`),
`current ≥ 0` and `20 ≤ temperature ≤ 50`; the stored capacity equals
`round(v * c, 2)` computed from the post-delta, PRE-clamp voltage `v` and
current `c` (within `1/200` of that pre-clamp product), not from the
post-clamp values. -/
theorem C1_tick_invariants (d : String → TickDelta) (ts : Nat) (s : DashState)
    (hcfg : ∀ p ∈ s.cells_data, p.2.min_voltage ≤ p.2.max_voltage) :
    (∀ q ∈ (tick d ts s).cells_data,
      q.2.min_voltage ≤ q.2.voltage ∧ q.2.voltage ≤ q.2.max_voltage ∧
      0 ≤ q.2.current ∧ 20 ≤ q.2.temp ∧ q.2.temp ≤ 50) ∧
    (∀ p ∈ s.cells_data,
      (tickCell (d p.1) p.2).capacity
          = round2 ((p.2.voltage + (d p.1).dv) * (p.2.current + (d p.1).dc)) ∧
      |(tickCell (d p.1) p.2).capacity
          - (p.2.voltage + (d p.1).dv) * (p.2.current + (d p.1).dc)| ≤ 1/200) ∧
    (tick d ts s).cells_data
        = s.cells_data.map (fun p => (p.1, tickCell (d p.1) p.2)) := by
  refine ⟨?_, fun p hp => ⟨rfl, abs_round2_sub _⟩, rfl⟩
  intro q hq
  simp only [tick] at hq
  obtain ⟨p, hp, rfl⟩ := List.mem_map.mp hq
  have hmm := hcfg p hp
  simp only [tickCell]
  refine ⟨le_max_left _ _, max_le hmm (min_le_left _ _), le_max_left _ _,
    le_max_left _ _, max_le (by norm_num) (min_le_left _ _)⟩

/-- Witness for C1 at the concrete clamping store. -/
theorem C1_tick_invariants_witness :
    ((tickCell clampDelta lowCurrentCell).min_voltage
        ≤ (tickCell clampDelta lowCurrentCell).voltage ∧
      (tickCell clampDelta lowCurrentCell).voltage
          ≤ (tickCell clampDelta lowCurrentCell).max_voltage ∧
      0 ≤ (tickCell clampDelta lowCurrentCell).current ∧
      20 ≤ (tickCell clampDelta lowCurrentCell).temp ∧
      (tickCell clampDelta lowCurrentCell).temp ≤ 50) ∧
    (tickCell clampDelta lowCurrentCell).capacity
        = round2 ((lowCurrentCell.voltage + clampDelta.dv)
            * (lowCurrentCell.current + clampDelta.dc)) := by
  have h := C1_tick_invariants (fun _ => clampDelta) 0 lowCurrentState
    (by norm_num [lowCurrentState, lowCurrentCell])
  refine ⟨h.1 ("cell_1", tickCell clampDelta lowCurrentCell) ?_,
    (h.2.1 ("cell_1", lowCurrentCell) ?_).1⟩
  · simp [tick, lowCurrentState]
  · simp [lowCurrentState]

lemma zip_map_self {α β : Type} (f : α → β) (l : List α) :
    (l.map f).zip l = l.map (fun a => (f a, a)) := by
  have h1 : (l.map f).zip (l.map id) = l.map (fun a => (f a, id a)) :=
    List.zip_map' f id l
  simpa using h1

/-- The state `set_current "cell_1" 1` produces from `oddVoltageState`:
capacity is the rounded product `round(3.333 * 1, 2) = 3.33`. -/
def oddVoltageStateAfter : DashState :=
  { cells_data := [("cell_1", { oddVoltageCell with current := 1, capacity := 3.33 })],
    historical_data := [] }

lemma set_current_oddVoltage :
    set_current "cell_1" 1 oddVoltageState = Except.ok oddVoltageStateAfter := by
  have hcap : round2 ((3.333 : Rat) * 1) = 3.33 := by
    norm_num [round2, roundHalfEven]
  simp only [set_current, oddVoltageState, oddVoltageStateAfter, oddVoltageCell,
    List.map_cons, List.map_nil, if_neg (show ¬ (1 : Rat) < 0 by norm_num),
    if_pos rfl, ite_true, hcap]

/-- C3 counterexample: on a cell with `voltage = 3.333`,
`set_current "cell_1" 1` stores `capacity = round(3.333 * 1, 2) = 3.33`,
which differs from the exact product `voltage * 1 = 3.333` the claim
prescribes. -/
theorem C3_counterexample :
    set_current "cell_1" 1 oddVoltageState = Except.ok oddVoltageStateAfter ∧
    oddVoltageStateAfter.cells_data.map (fun p => (p.2.current, p.2.capacity))
        = [(1, 3.33)] ∧
    (3.33 : Rat) ≠ oddVoltageCell.voltage * 1 := by
  refine ⟨set_current_oddVoltage, rfl, ?_⟩
  norm_num [oddVoltageCell]

/-- C3 (amended): `set_current cid v` with `v ≥ 0` succeeds, keeps the
History Log and the cell ids, sets the target cell's current to `v` and its
capacity to `round(voltage * v, 2)` (not the exact product) while leaving
its voltage and temperature unchanged, and leaves every other cell entirely
unchanged; with `v < 0` it fails with `InvalidValue` and no new state is
produced. -/
theorem C3_set_current (s : DashState) (cid : String) (v : Rat) :
    (0 ≤ v → ∃ s2, set_current cid v s = Except.ok s2 ∧
      s2.historical_data = s.historical_data ∧
      s2.cells_data.map Prod.fst = s.cells_data.map Prod.fst ∧
      ∀ pr ∈ s2.cells_data.zip s.cells_data,
        (pr.1.1 = cid →
          pr.1.2.current = v ∧
          pr.1.2.capacity = round2 (pr.2.2.voltage * v) ∧
          pr.1.2.voltage = pr.2.2.voltage ∧
          pr.1.2.temp = pr.2.2.temp) ∧
        (pr.1.1 ≠ cid → pr.1 = pr.2)) ∧
    (v < 0 → set_current cid v s = Except.error Err.InvalidValue) := by
  constructor
  · intro h0
    have hnot : ¬ v < 0 := not_lt.mpr h0
    refine ⟨{ s with cells_data := s.cells_data.map (fun p =>
        if p.1 = cid then
          (p.1, { p.2 with current := v, capacity := round2 (p.2.voltage * v) })
        else p) }, by simp [set_current, hnot], rfl, ?_, ?_⟩
    · simp only [List.map_map]
      congr 1
      funext p
      by_cases hp : p.1 = cid <;> simp [hp]
    · intro pr hpr
      rw [zip_map_self] at hpr
      obtain ⟨a, ha, rfl⟩ := List.mem_map.mp hpr
      by_cases hp : a.1 = cid
      · refine ⟨fun _ => ?_, fun hne => absurd ?_ hne⟩
        · simp [hp]
        · simp only [if_pos hp]
          exact hp
      · refine ⟨fun heq => ?_, fun _ => ?_⟩
        · rw [if_neg hp] at heq
          exact absurd heq hp
        · rw [if_neg hp]
  · intro hneg
    simp [set_current, hneg]

/-- Witness for C3: a valid and an invalid `set_current` call on the
concrete one-cell store. -/
theorem C3_set_current_witness :
    (∃ s2, set_current "cell_1" 1 oddVoltageState = Except.ok s2 ∧
      s2.historical_data = oddVoltageState.historical_data ∧
      s2.cells_data.map Prod.fst = oddVoltageState.cells_data.map Prod.fst ∧
      ∀ pr ∈ s2.cells_data.zip oddVoltageState.cells_data,
        (pr.1.1 = "cell_1" →
          pr.1.2.current = 1 ∧
          pr.1.2.capacity = round2 (pr.2.2.voltage * 1) ∧
          pr.1.2.voltage = pr.2.2.voltage ∧
          pr.1.2.temp = pr.2.2.temp) ∧
        (pr.1.1 ≠ "cell_1" → pr.1 = pr.2)) ∧
    set_current "cell_1" (-1) oddVoltageState = Except.error Err.InvalidValue := by
  exact ⟨(C3_set_current oddVoltageState "cell_1" 1).1 (by norm_num),
    (C3_set_current oddVoltageState "cell_1" (-1)).2 (by norm_num)⟩

/-- C9 counterexample: initializing one cell with a current draw of
`1.111 A` (within the documented `[0, 5]` range) and zero voltage offset
stores `capacity = round(3.2 * 1.111, 2) = 3.56`, which differs from the
exact product `voltage * current = 3.5552` required by the claimed
invariant `capacity == voltage * current`. -/
theorem C9_counterexample :
    (init_cells 1 oddRand emptyDash).cells_data.map
        (fun p => (p.2.voltage, p.2.current, p.2.capacity))
      = [(3.2, 1.111, 3.56)] ∧
    (3.56 : Rat) ≠ 3.2 * 1.111 ∧
    (0 : Rat) ≤ 1.111 ∧ (1.111 : Rat) ≤ 5 := by
  refine ⟨?_, by norm_num, by norm_num, by norm_num⟩
  simp [init_cells, initCell, oddRand, emptyDash, CELL_CONFIGS, List.range_succ]
  norm_num [round2, roundHalfEven]

/-- C9 (amended): `init_cells n` replaces the store with exactly `n` cells
named `cell_1 .. cell_n`; with the fixed chemistry policy
`[lfp, nmc, lfp, nmc]` and zero random offsets, `init_cells 4` yields
voltages `3.2, 3.6, 3.2, 3.6`; and for draws within the documented ranges,
after initialization every cell satisfies
`min_voltage ≤ voltage ≤ max_voltage`, `current ≥ 0`, `20 ≤ temp ≤ 50`, and
`capacity = round(voltage * current, 2)` — the product rounded to 2
decimals, hence within `1/200` of the exact product rather than equal to
it. -/
theorem C9_init_cells (n : Nat) (r : InitRand) (s : DashState)
    (hv : ∀ i, -(0.1 : Rat) ≤ r.voff i ∧ r.voff i ≤ 0.1)
    (hc : ∀ i, 0 ≤ r.cur i ∧ r.cur i ≤ 5)
    (ht : ∀ i, 25 ≤ r.tmp i ∧ r.tmp i ≤ 40) :
    (init_cells n r s).cells_data.map Prod.fst
        = (List.range n).map (fun k => cellId (k + 1)) ∧
    (init_cells n r s).cells_data.length = n ∧
    (∀ q ∈ (init_cells n r s).cells_data,
      q.2.min_voltage ≤ q.2.voltage ∧ q.2.voltage ≤ q.2.max_voltage ∧
      0 ≤ q.2.current ∧ 20 ≤ q.2.temp ∧ q.2.temp ≤ 50 ∧
      q.2.capacity = round2 (q.2.voltage * q.2.current) ∧
      |q.2.capacity - q.2.voltage * q.2.current| ≤ 1/200) ∧
    (init_cells 4 fixedRand s).cells_data.map (fun p => (p.1, p.2.voltage))
        = [("cell_1", 3.2), ("cell_2", 3.6), ("cell_3", 3.2), ("cell_4", 3.6)] := by
  refine ⟨by simp [init_cells], by simp [init_cells], ?_, ?_⟩
  · intro q hq
    simp only [init_cells] at hq
    obtain ⟨k, hk, rfl⟩ := List.mem_map.mp hq
    obtain ⟨hv1, hv2⟩ := hv (k + 1)
    obtain ⟨hc1, hc2⟩ := hc (k + 1)
    obtain ⟨ht1, ht2⟩ := ht (k + 1)
    have h250 : ((250 : Int) : Rat) ≤ r.tmp (k + 1) * 10 := by push_cast; linarith
    have h400 : r.tmp (k + 1) * 10 ≤ ((400 : Int) : Rat) := by push_cast; linarith
    have htl := round1_ge h250
    have htu := round1_le h400
    have htl2 : (25 : Rat) ≤ round1 (r.tmp (k + 1)) := by
      have : ((250 : Int) : Rat) / 10 = 25 := by norm_num
      linarith [this ▸ htl]
    have htu2 : round1 (r.tmp (k + 1)) ≤ (40 : Rat) := by
      have : ((400 : Int) : Rat) / 10 = 40 := by norm_num
      linarith [this ▸ htu]
    rcases hch : r.chem (k + 1) with _ | _ <;>
    · simp only [initCell, hch, CELL_CONFIGS]
      exact ⟨by linarith, by linarith, hc1, by linarith, by linarith, by trivial,
        abs_round2_sub _⟩
  · have h1 : cellId 1 = "cell_1" := rfl
    have h2 : cellId 2 = "cell_2" := rfl
    have h3 : cellId 3 = "cell_3" := rfl
    have h4 : cellId 4 = "cell_4" := rfl
    simp [init_cells, initCell, fixedRand, CELL_CONFIGS, List.range_succ,
      h1, h2, h3, h4]

/-- Witness for C9 at the fixed chemistry policy and concrete draws. -/
theorem C9_init_cells_witness :
    (init_cells 4 fixedRand emptyDash).cells_data.map Prod.fst
        = (List.range 4).map (fun k => cellId (k + 1)) ∧
    (init_cells 4 fixedRand emptyDash).cells_data.length = 4 ∧
    (("cell_1", initCell fixedRand 1).2.min_voltage
        ≤ ("cell_1", initCell fixedRand 1).2.voltage ∧
      ("cell_1", initCell fixedRand 1).2.voltage
          ≤ ("cell_1", initCell fixedRand 1).2.max_voltage ∧
      0 ≤ ("cell_1", initCell fixedRand 1).2.current ∧
      20 ≤ ("cell_1", initCell fixedRand 1).2.temp ∧
      ("cell_1", initCell fixedRand 1).2.temp ≤ 50 ∧
      ("cell_1", initCell fixedRand 1).2.capacity
          = round2 (("cell_1", initCell fixedRand 1).2.voltage
              * ("cell_1", initCell fixedRand 1).2.current) ∧
      |("cell_1", initCell fixedRand 1).2.capacity
          - ("cell_1", initCell fixedRand 1).2.voltage
              * ("cell_1", initCell fixedRand 1).2.current| ≤ 1/200) := by
  have h := C9_init_cells 4 fixedRand emptyDash
    (fun i => by constructor <;> norm_num [fixedRand])
    (fun i => by constructor <;> norm_num [fixedRand])
    (fun i => by constructor <;> norm_num [fixedRand])
  refine ⟨h.1, h.2.1, h.2.2.1 ("cell_1", initCell fixedRand 1) ?_⟩
  have h1 : cellId 1 = "cell_1" := rfl
  simp [init_cells, List.range_succ, h1]

/-- C10: at each of the three capacity-recomputation sites — cell creation
in `init_cells`, the per-cell tick update, and `set_current` — the stored
capacity is `round(voltage * current, 2)`, the product of the values used
at that site rounded to 2 decimal places; and this rounded value is not in
general the exact product (`round(3.2 * 1.111, 2) = 3.56 ≠ 3.5552`). -/
theorem C10_capacity_rounding :
    (∀ r i, (initCell r i).capacity
        = round2 ((initCell r i).voltage * (initCell r i).current)) ∧
    (∀ d c, (tickCell d c).capacity
        = round2 ((c.voltage + d.dv) * (c.current + d.dc))) ∧
    (∀ s cid v s2, set_current cid v s = Except.ok s2 →
      ∀ pr ∈ s2.cells_data.zip s.cells_data,
        pr.1.1 = cid → pr.1.2.capacity = round2 (pr.2.2.voltage * v)) ∧
    (round2 ((3.2 : Rat) * 1.111) = 3.56 ∧ (3.2 : Rat) * 1.111 ≠ 3.56) := by
  refine ⟨fun r i => rfl, fun d c => rfl, ?_, by norm_num [round2, roundHalfEven],
    by norm_num⟩
  intro s cid v s2 h pr hpr hfst
  by_cases hvn : v < 0
  · simp [set_current, hvn] at h
  · simp only [set_current, if_neg hvn, Except.ok.injEq] at h
    subst h
    rw [zip_map_self] at hpr
    obtain ⟨a, ha, rfl⟩ := List.mem_map.mp hpr
    by_cases hp : a.1 = cid
    · simp only [if_pos hp]
    · rw [if_neg hp] at hfst
      exact absurd hfst hp

/-- Witness for C10: the three sites evaluated at concrete inputs. -/
theorem C10_capacity_rounding_witness :
    (initCell oddRand 1).capacity
        = round2 ((initCell oddRand 1).voltage * (initCell oddRand 1).current) ∧
    (tickCell clampDelta lowCurrentCell).capacity
        = round2 ((lowCurrentCell.voltage + clampDelta.dv)
            * (lowCurrentCell.current + clampDelta.dc)) ∧
    (("cell_1", { oddVoltageCell with current := 1, capacity := 3.33 }),
        ("cell_1", oddVoltageCell)).1.2.capacity
      = round2 ((("cell_1", { oddVoltageCell with current := 1, capacity := 3.33 }),
          ("cell_1", oddVoltageCell)).2.2.voltage * 1) := by
  refine ⟨C10_capacity_rounding.1 oddRand 1,
    C10_capacity_rounding.2.1 clampDelta lowCurrentCell,
    C10_capacity_rounding.2.2.1 oddVoltageState "cell_1" 1 oddVoltageStateAfter
      set_current_oddVoltage _ ?_ rfl⟩
  simp [oddVoltageStateAfter, oddVoltageState]

end BatteryDashboard
